import Mathlib

set_option maxRecDepth 8192

/-!
Shallow embedding of the WAV converter (`src/main.rs`): a tool that reads a
48 kHz / mono / 24-bit integer-PCM WAV file, trims or zero-pads the samples
to exactly 1024, serializes them into a classic 44-byte-header PCM WAV byte
buffer (clamping each sample to the signed 24-bit envelope), and durably
writes the buffer via a temp-file / fsync / rename protocol.

Machine integers are modelled as `Nat` / `Int` with explicit `% 2 ^ w`
where the Rust code truncates (`as u32` casts, `u32` wrap-around).
Bytes are `Nat` values below 256.
-/

/-- Mirrors `const TARGET_SR: u32 = 48_000`. -/
def TARGET_SR : Nat := 48000

/-- Mirrors `const TARGET_SAMPLES: usize = 1024`. -/
def TARGET_SAMPLES : Nat := 1024

/-- Little-endian bytes of a `u16` value (`to_le_bytes`), value taken below `2 ^ 16`. -/
def le16 (n : Nat) : List Nat := [n % 256, n / 256 % 256]

/-- Little-endian bytes of a `u32` value (`to_le_bytes`), value taken below `2 ^ 32`. -/
def le32 (n : Nat) : List Nat :=
  [n % 256, n / 256 % 256, n / 65536 % 256, n / 16777216 % 256]

/-- The two sequential clamp `if`s of `build_classic_pcm24_wav_bytes`:
`if v > 8_388_607 { v = 8_388_607 }` then `if v < -8_388_608 { v = -8_388_608 }`. -/
def clamp24 (s : Int) : Int :=
  let v1 := if s > 8388607 then 8388607 else s
  if v1 < -8388608 then -8388608 else v1

/-- The `u32` bit pattern of the clamped sample: `let u = v as u32`.
On the `i32` range the Rust cast is the value modulo `2 ^ 32`. -/
def sampleBits (s : Int) : Nat := (clamp24 s % 4294967296).toNat

/-- The three pushed bytes per sample: `u & 0xFF`, `(u >> 8) & 0xFF`, `(u >> 16) & 0xFF`. -/
def encodeSample (s : Int) : List Nat :=
  [sampleBits s % 256, sampleBits s / 256 % 256, sampleBits s / 65536 % 256]

/-- The 44-byte header that `build_classic_pcm24_wav_bytes` pushes before the
sample data, as a function of the sample count `n`.
`data_bytes = (samples.len() * 3) as u32` and
`riff_size = 4 + (8 + 16) + (8 + data_bytes)` over `u32` arithmetic.
Byte literals spell `RIFF`, `WAVE`, `fmt ` and `data`. -/
def wavHeader (n : Nat) : List Nat :=
  let data_bytes := n * 3 % 4294967296
  let riff_size := (4 + (8 + 16) + (8 + data_bytes)) % 4294967296
  [82, 73, 70, 70] ++ le32 riff_size ++
    ([87, 65, 86, 69] ++
      [102, 109, 116, 32] ++ le32 16 ++
      le16 1 ++ le16 1 ++ le32 TARGET_SR ++ le32 (TARGET_SR * (1 * (24 / 8))) ++
      le16 (1 * (24 / 8)) ++ le16 24 ++
      [100, 97, 116, 97]) ++
    le32 (n * 3 % 4294967296)

/-- Mirrors `fn build_classic_pcm24_wav_bytes(samples: &[i32]) -> Vec<u8>`:
the 44-byte header followed by three clamped little-endian bytes per sample. -/
def build_classic_pcm24_wav_bytes (samples : List Int) : List Nat :=
  wavHeader samples.length ++ (samples.map encodeSample).flatten

/-- The frame-normalization step inlined in `main`:
`if samples.len() >= TARGET_SAMPLES { samples.truncate(TARGET_SAMPLES) }
else { samples.resize(TARGET_SAMPLES, 0) }`. -/
def normalize_frame (samples : List Int) : List Int :=
  if samples.length ≥ TARGET_SAMPLES then samples.take TARGET_SAMPLES
  else samples ++ List.replicate (TARGET_SAMPLES - samples.length) 0

/-- Combine a little-endian byte list into the value it denotes. -/
def leBytes : List Nat → Nat
  | [] => 0
  | b :: rest => b + 256 * leBytes rest

/-- Read the little-endian `u32` field stored at byte offset `off` of a buffer. -/
def fieldU32 (buf : List Nat) (off : Nat) : Nat := leBytes ((buf.drop off).take 4)

/-- Read the little-endian `u16` field stored at byte offset `off` of a buffer. -/
def fieldU16 (buf : List Nat) (off : Nat) : Nat := leBytes ((buf.drop off).take 2)

/-- Sign-extend three little-endian bytes as a 24-bit two's-complement value,
the way a 24-bit WAV decoder (such as the input-side decoder) reads a sample. -/
def decodeSample24 (b0 b1 b2 : Nat) : Int :=
  let u := b0 + 256 * b1 + 65536 * b2
  if u < 8388608 then (u : Int) else (u : Int) - 16777216

/-- Decode a data region into samples, three bytes at a time. -/
def decodeData : List Nat → List Int
  | b0 :: b1 :: b2 :: rest => decodeSample24 b0 b1 b2 :: decodeData rest
  | _ => []

/-- Value obtained by decoding the three bytes the encoder emits for `s`. -/
def reDecode (s : Int) : Int :=
  decodeSample24 (sampleBits s % 256) (sampleBits s / 256 % 256) (sampleBits s / 65536 % 256)

/-- Spec-side definition, from the spec's words: the "little-endian
two's-complement 24-bit representation" of a value, i.e. the three
little-endian bytes of the value modulo `2 ^ 24`. -/
def tc24le (x : Int) : List Nat :=
  let u := (x % 16777216).toNat
  [u % 256, u / 256 % 256, u / 65536 % 256]

/-- Mirrors hound's `SampleFormat`: integer versus IEEE-float samples. -/
inductive SampleFormat where
  | int : SampleFormat
  | float : SampleFormat
deriving DecidableEq

/-- The fields of hound's `WavSpec` that `read_pcm24_mono` inspects. -/
structure WavSpec where
  sample_rate : Nat
  channels : Nat
  sample_format : SampleFormat
  bits_per_sample : Nat
deriving DecidableEq

/-- Debug rendering of a `SampleFormat`, as `{:?}` prints it. -/
def SampleFormat.render : SampleFormat → String
  | .int => "Int"
  | .float => "Float"

/-- Mirrors `fn read_pcm24_mono(path: &Path) -> Result<Vec<i32>>`: the four
sequential header checks, then the sign-extended samples. The file's parsed
header and raw samples stand in for the opened reader; open and parse
failures are outside this model. Error strings follow the `bail!` formats. -/
def read_pcm24_mono (spec : WavSpec) (samples : List Int) : Except String (List Int) :=
  if spec.sample_rate ≠ TARGET_SR then
    .error ("Expected " ++ toString TARGET_SR ++ " Hz, got " ++
      toString spec.sample_rate ++ " (no resample)")
  else if spec.channels ≠ 1 then
    .error ("Expected mono (1 channel), got " ++ toString spec.channels)
  else if spec.sample_format ≠ SampleFormat.int then
    .error ("Expected integer PCM, got " ++ spec.sample_format.render)
  else if spec.bits_per_sample ≠ 24 then
    .error ("Expected 24-bit PCM, got " ++ toString spec.bits_per_sample ++ "-bit")
  else
    .ok samples

/-- The in-memory pipeline of `main`: decode, normalize_frame, encode. -/
def convert (spec : WavSpec) (samples : List Int) : Except String (List Nat) :=
  match read_pcm24_mono spec samples with
  | .error e => .error e
  | .ok s => .ok (build_classic_pcm24_wav_bytes (normalize_frame s))

/-- Model of a `Path` as `write_atomic_synced` uses it: the containing
directory (`path.parent()`, rendered opaquely) and the file name
(`path.file_name()`). -/
structure RPath where
  parent : Option String
  fileName : Option String
deriving DecidableEq

/-- Rendering of a path for error messages, directory then name. -/
def RPath.render (p : RPath) : String :=
  match p.parent with
  | some d => d ++ "/" ++ p.fileName.getD ""
  | none => p.fileName.getD ""

/-- Mirrors `fn temp_path_in_same_dir(path: &Path) -> (PathBuf, Option<PathBuf>)`:
the stem is the destination's file name (default `"output.wav"`), the temp
name is `"." + stem + ".tmp"`, joined onto the same parent directory. -/
def temp_path_in_same_dir (path : RPath) : RPath × Option String :=
  let stem := match path.fileName with
    | some s => s
    | none => "output.wav"
  let tmp_name := "." ++ stem ++ ".tmp"
  (⟨path.parent, some tmp_name⟩, path.parent)

/-- Filesystem operations `write_atomic_synced` performs, in order, each
tagged with its target; the `writeAll` event carries the full buffer passed
to the single `write_all` call. -/
inductive WEvent where
  | create (p : RPath) : WEvent
  | writeAll (p : RPath) (bytes : List Nat) : WEvent
  | flush (p : RPath) : WEvent
  | sync (p : RPath) : WEvent
  | rename (src dst : RPath) : WEvent
  | dirSync (d : String) : WEvent
deriving DecidableEq

/-- Oracle for the outcome of each fallible filesystem operation in one run
of `write_atomic_synced` (the I/O environment, not program state). -/
structure FsWorld where
  createOk : Bool
  writeOk : Bool
  flushOk : Bool
  syncOk : Bool
  renameOk : Bool
  dirSyncOk : Bool
deriving DecidableEq

/-- Contents of the two files `write_atomic_synced` can affect: the
destination and the temp file (`none` = absent). -/
structure FsState where
  dest : Option (List Nat)
  tmp : Option (List Nat)
deriving DecidableEq

/-- Mirrors `fn write_atomic_synced(path: &Path, bytes: &[u8]) -> Result<()>`:
create the temp file, `write_all` the buffer, flush, `sync_all`, rename onto
the destination, then best-effort sync of the parent directory whose failure
is discarded (`let _ = sync_dir(&dir)`). Returns the result (error strings
follow the `with_context` formats), the resulting file state, and the trace
of attempted operations. -/
def write_atomic_synced (w : FsWorld) (path : RPath) (bytes : List Nat)
    (st : FsState) : Except String Unit × FsState × List WEvent :=
  let tmp_path := (temp_path_in_same_dir path).1
  let parent := (temp_path_in_same_dir path).2
  if !w.createOk then
    (.error ("create temp file " ++ tmp_path.render), st, [.create tmp_path])
  else if !w.writeOk then
    (.error ("write temp file " ++ tmp_path.render), { st with tmp := some [] },
      [.create tmp_path, .writeAll tmp_path bytes])
  else if !w.flushOk then
    (.error "flush temp file", { st with tmp := some bytes },
      [.create tmp_path, .writeAll tmp_path bytes, .flush tmp_path])
  else if !w.syncOk then
    (.error "fsync temp file", { st with tmp := some bytes },
      [.create tmp_path, .writeAll tmp_path bytes, .flush tmp_path, .sync tmp_path])
  else if !w.renameOk then
    (.error ("rename temp " ++ tmp_path.render ++ " -> " ++ path.render ++
        " (must be same filesystem)"),
      { st with tmp := some bytes },
      [.create tmp_path, .writeAll tmp_path bytes, .flush tmp_path, .sync tmp_path,
        .rename tmp_path path])
  else
    match parent with
    | some d =>
      (.ok (), ⟨some bytes, none⟩,
        [.create tmp_path, .writeAll tmp_path bytes, .flush tmp_path, .sync tmp_path,
          .rename tmp_path path, .dirSync d])
    | none =>
      (.ok (), ⟨some bytes, none⟩,
        [.create tmp_path, .writeAll tmp_path bytes, .flush tmp_path, .sync tmp_path,
          .rename tmp_path path])

/-- Substring test used to state "the offending path is attached to the
error message". -/
def strContains (s pat : String) : Bool :=
  (List.range (s.length + 1)).any fun i => pat.toList.isPrefixOf (s.toList.drop i)

/-- The header is always 44 bytes, whatever the sample count. -/
lemma wavHeader_length (n : Nat) : (wavHeader n).length = 44 := by
  simp [wavHeader, le32, le16]

/-- Each sample contributes exactly three data bytes. -/
lemma flatten_encode_length (samples : List Int) :
    ((samples.map encodeSample).flatten).length = 3 * samples.length := by
  induction samples with
  | nil => simp
  | cons a rest ih =>
    simp only [List.map_cons, List.flatten_cons, List.length_append, ih, encodeSample,
      List.length_cons, List.length_nil]
    omega

/-- The output buffer is the 44-byte header followed by `3 * n` data bytes. -/
lemma build_length (samples : List Int) :
    (build_classic_pcm24_wav_bytes samples).length = 44 + 3 * samples.length := by
  unfold build_classic_pcm24_wav_bytes
  rw [List.length_append, wavHeader_length, flatten_encode_length]

/-- Reading inside the first 44 bytes of the output reads the header. -/
lemma build_drop_take (samples : List Int) (off k : Nat) (h : off + k ≤ 44) :
    ((build_classic_pcm24_wav_bytes samples).drop off).take k =
      ((wavHeader samples.length).drop off).take k := by
  unfold build_classic_pcm24_wav_bytes
  rw [List.drop_append_of_le_length (by rw [wavHeader_length]; omega)]
  rw [List.take_append_of_le_length]
  rw [List.length_drop, wavHeader_length]
  omega

/-- The data region of the output buffer is the flattened per-sample bytes. -/
lemma build_drop_44 (samples : List Int) :
    (build_classic_pcm24_wav_bytes samples).drop 44 = (samples.map encodeSample).flatten := by
  unfold build_classic_pcm24_wav_bytes
  exact List.drop_left' (wavHeader_length samples.length)

/-- The clamp always lands in the signed 24-bit envelope. -/
lemma clamp24_bounds (s : Int) : -8388608 ≤ clamp24 s ∧ clamp24 s ≤ 8388607 := by
  simp only [clamp24]
  split <;> split <;> omega

/-- The clamp is the identity on in-range samples. -/
lemma clamp24_id (s : Int) (h1 : -8388608 ≤ s) (h2 : s ≤ 8388607) : clamp24 s = s := by
  simp only [clamp24]
  split <;> split <;> omega

/-- Recombining a little-endian `u32` byte quadruple gives the value modulo `2 ^ 32`. -/
lemma leBytes_le32 (v : Nat) : leBytes (le32 v) = v % 4294967296 := by
  simp only [le32, leBytes]
  omega

/-- Decoding the three bytes the encoder emits recovers exactly the clamped sample. -/
lemma reDecode_eq_clamp24 (s : Int) : reDecode s = clamp24 s := by
  obtain ⟨hl, hu⟩ := clamp24_bounds s
  unfold reDecode decodeSample24 sampleBits
  set a := clamp24 s with ha
  have h32 : ((a % 4294967296).toNat : Int) = a % 4294967296 :=
    Int.toNat_of_nonneg (Int.emod_nonneg a (by norm_num))
  set m := (a % 4294967296).toNat with hm
  have hmlt : m < 4294967296 := by
    have := Int.emod_lt_of_pos a (b := 4294967296) (by norm_num)
    omega
  have hcomb : m % 256 + 256 * (m / 256 % 256) + 65536 * (m / 65536 % 256) =
      m % 16777216 := by omega
  have hm24 : ((m % 16777216 : Nat) : Int) = a % 16777216 := by
    have : (m : Int) % 16777216 = a % 16777216 := by
      rw [h32]
      exact Int.emod_emod_of_dvd a (by norm_num)
    omega
  rw [hcomb]
  by_cases hneg : 0 ≤ a
  · have hsmall : a % 16777216 = a := Int.emod_eq_of_lt hneg (by omega)
    have : m % 16777216 < 8388608 := by omega
    simp only [if_pos this]
    omega
  · have hsmall : a % 16777216 = a + 16777216 := by
      have : a % 16777216 = (a + 16777216) % 16777216 := by
        omega
      rw [this]
      exact Int.emod_eq_of_lt (by omega) (by omega)
    have : ¬ (m % 16777216 < 8388608) := by omega
    simp only [if_neg this]
    omega

/-- Decoding the whole data region recovers the clamped input samples. -/
lemma decodeData_flatten (samples : List Int) :
    decodeData ((samples.map encodeSample).flatten) = samples.map clamp24 := by
  induction samples with
  | nil => simp [decodeData]
  | cons a rest ih =>
    simp only [List.map_cons, List.flatten_cons, encodeSample, List.cons_append,
      List.nil_append, decodeData, ih]
    congr 1
    rw [← reDecode_eq_clamp24]
    rfl

/-- The normalizer always returns exactly the target length. -/
lemma normalize_frame_length (samples : List Int) :
    (normalize_frame samples).length = 1024 := by
  unfold normalize_frame TARGET_SAMPLES
  split
  · rw [List.length_take]; omega
  · rw [List.length_append, List.length_replicate]; omega

/-- A sequence already at the target length is left unchanged. -/
lemma normalize_frame_fix (samples : List Int) (h : samples.length = 1024) :
    normalize_frame samples = samples := by
  unfold normalize_frame TARGET_SAMPLES
  rw [if_pos (by omega), ← h, List.take_length]

/-- C3: the Frame Normalizer always yields exactly 1024 samples; with at
least 1024 input samples it keeps precisely the first 1024, and with fewer
it appends zeros up to 1024. (Totality and determinism are inherent: the
embedding is a Lean function.) -/
theorem frame_normalizer_spec (samples : List Int) :
    (normalize_frame samples).length = 1024 ∧
    (samples.length ≥ 1024 → normalize_frame samples = samples.take 1024) ∧
    (samples.length < 1024 →
      normalize_frame samples = samples ++ List.replicate (1024 - samples.length) 0) := by
  refine ⟨normalize_frame_length samples, ?_, ?_⟩
  · intro h
    unfold normalize_frame TARGET_SAMPLES
    rw [if_pos h]
  · intro h
    unfold normalize_frame TARGET_SAMPLES
    rw [if_neg (by omega)]

/-- Witness for C3 at a concrete 500-sample input. -/
theorem frame_normalizer_spec_witness :
    (normalize_frame (List.replicate 500 (7 : Int))).length = 1024 ∧
    normalize_frame (List.replicate 500 (7 : Int)) =
      List.replicate 500 (7 : Int) ++ List.replicate 524 0 := by
  have h := frame_normalizer_spec (List.replicate 500 (7 : Int))
  refine ⟨h.1, ?_⟩
  have h2 := h.2.2 (by simp)
  simpa using h2

/-- C10: the Frame Normalizer is idempotent, and fixes every sequence whose
length is already exactly 1024. -/
theorem frame_normalizer_idempotent :
    (∀ samples : List Int,
      normalize_frame (normalize_frame samples) = normalize_frame samples) ∧
    (∀ samples : List Int, samples.length = 1024 → normalize_frame samples = samples) :=
  ⟨fun samples => normalize_frame_fix _ (normalize_frame_length samples),
   fun samples h => normalize_frame_fix samples h⟩

/-- Witness for C10's second conjunct at a concrete 1024-sample input. -/
theorem frame_normalizer_idempotent_witness :
    normalize_frame (List.replicate 1024 (3 : Int)) = List.replicate 1024 (3 : Int) :=
  frame_normalizer_idempotent.2 _ (by simp)

/-- C1: for the 1024-sample frames every valid run feeds the encoder, the
output buffer is exactly `44 + 1024 * 3` bytes, the four chunk tags sit at
their offsets, and every header field has its required value. -/
theorem wav_header_exact (samples : List Int) (h : samples.length = 1024) :
    (build_classic_pcm24_wav_bytes samples).length = 44 + 1024 * 3 ∧
    (build_classic_pcm24_wav_bytes samples).take 4 = [82, 73, 70, 70] ∧
    ((build_classic_pcm24_wav_bytes samples).drop 8).take 4 = [87, 65, 86, 69] ∧
    ((build_classic_pcm24_wav_bytes samples).drop 12).take 4 = [102, 109, 116, 32] ∧
    ((build_classic_pcm24_wav_bytes samples).drop 36).take 4 = [100, 97, 116, 97] ∧
    fieldU32 (build_classic_pcm24_wav_bytes samples) 16 = 16 ∧
    fieldU16 (build_classic_pcm24_wav_bytes samples) 20 = 1 ∧
    fieldU16 (build_classic_pcm24_wav_bytes samples) 22 = 1 ∧
    fieldU32 (build_classic_pcm24_wav_bytes samples) 24 = 48000 ∧
    fieldU32 (build_classic_pcm24_wav_bytes samples) 28 = 144000 ∧
    fieldU16 (build_classic_pcm24_wav_bytes samples) 32 = 3 ∧
    fieldU16 (build_classic_pcm24_wav_bytes samples) 34 = 24 ∧
    fieldU32 (build_classic_pcm24_wav_bytes samples) 40 = 1024 * 3 ∧
    fieldU32 (build_classic_pcm24_wav_bytes samples) 4 = 4 + (8 + 16) + (8 + 1024 * 3) := by
  have hb : ∀ off k, off + k ≤ 44 →
      ((build_classic_pcm24_wav_bytes samples).drop off).take k =
        ((wavHeader 1024).drop off).take k := by
    intro off k hk
    rw [build_drop_take samples off k hk, h]
  refine ⟨?_, ?_, ?_, ?_, ?_, ?_, ?_, ?_, ?_, ?_, ?_, ?_, ?_, ?_⟩
  · rw [build_length, h]
  · have h0 := hb 0 4 (by omega)
    rw [List.drop_zero] at h0
    rw [h0]
    decide
  · rw [hb 8 4 (by omega)]; decide
  · rw [hb 12 4 (by omega)]; decide
  · rw [hb 36 4 (by omega)]; decide
  · unfold fieldU32; rw [hb 16 4 (by omega)]; decide
  · unfold fieldU16; rw [hb 20 2 (by omega)]; decide
  · unfold fieldU16; rw [hb 22 2 (by omega)]; decide
  · unfold fieldU32; rw [hb 24 4 (by omega)]; decide
  · unfold fieldU32; rw [hb 28 4 (by omega)]; decide
  · unfold fieldU16; rw [hb 32 2 (by omega)]; decide
  · unfold fieldU16; rw [hb 34 2 (by omega)]; decide
  · unfold fieldU32; rw [hb 40 4 (by omega)]; decide
  · unfold fieldU32; rw [hb 4 4 (by omega)]; decide

/-- Witness for C1 at a concrete 1024-sample input. -/
theorem wav_header_exact_witness :
    (build_classic_pcm24_wav_bytes (List.replicate 1024 (0 : Int))).length =
      44 + 1024 * 3 :=
  (wav_header_exact (List.replicate 1024 0) (by simp)).1

/-- The code's two sequential clamp `if`s compute the clamp to
`[-8388608, 8388607]` described by the spec. -/
lemma clamp24_minmax (s : Int) : clamp24 s = max (-8388608) (min 8388607 s) := by
  simp only [clamp24]
  split <;> split <;> omega

/-- The three emitted bytes of a sample are exactly the little-endian
24-bit two's-complement representation of the clamped sample: the low three
bytes of the `u32` bit pattern coincide with the bytes of the value modulo
`2 ^ 24`. -/
lemma encodeSample_eq (s : Int) : encodeSample s = tc24le (clamp24 s) := by
  simp only [encodeSample, tc24le, sampleBits]
  set a := clamp24 s with ha
  have h32n : ((a % 4294967296).toNat : Int) = a % 4294967296 :=
    Int.toNat_of_nonneg (Int.emod_nonneg a (by norm_num))
  have h24n : ((a % 16777216).toNat : Int) = a % 16777216 :=
    Int.toNat_of_nonneg (Int.emod_nonneg a (by norm_num))
  set m := (a % 4294967296).toNat with hm
  set u := (a % 16777216).toNat with hu
  have hmod : (m : Int) % 16777216 = (u : Int) := by
    rw [h32n, h24n]
    exact Int.emod_emod_of_dvd a (by norm_num)
  have hult : u < 16777216 := by
    have := Int.emod_lt_of_pos a (b := (16777216 : Int)) (by norm_num)
    omega
  have hmu : m % 16777216 = u := by omega
  simp only [List.cons.injEq, and_true]
  refine ⟨by omega, by omega, by omega⟩

/-- C4: every emitted 3-byte group is the little-endian two's-complement
24-bit representation of the clamped sample, the clamp is the
min/max clamp to `[-8388608, 8388607]`, the documented out-of-range inputs
encode as the respective bounds, in-range samples encode unchanged, and no
sample is ever rejected (exactly three bytes come out of every sample). -/
theorem per_sample_encoding :
    (∀ s : Int, encodeSample s = tc24le (clamp24 s)) ∧
    (∀ s : Int, clamp24 s = max (-8388608) (min 8388607 s)) ∧
    encodeSample 10000000 = tc24le 8388607 ∧
    encodeSample (-10000000) = tc24le (-8388608) ∧
    (∀ s : Int, -8388608 ≤ s → s ≤ 8388607 → encodeSample s = tc24le s) ∧
    (∀ s : Int, (encodeSample s).length = 3) := by
  refine ⟨encodeSample_eq, clamp24_minmax, by decide, by decide, ?_, fun s => rfl⟩
  intro s h1 h2
  rw [encodeSample_eq, clamp24_id s h1 h2]

/-- Witness for C4 at concrete in-range and out-of-range samples. -/
theorem per_sample_encoding_witness :
    encodeSample 5 = tc24le 5 ∧ encodeSample 10000000 = tc24le 8388607 :=
  ⟨per_sample_encoding.2.2.2.2.1 5 (by norm_num) (by norm_num),
   per_sample_encoding.2.2.1⟩

/-- C9: the encoder is total (a Lean function on all of `Int`, with
`Int` ⊇ the `i32` sample type), and every 3-byte group it emits
sign-extends back to a value inside `[-8388608, 8388607]`. -/
theorem emitted_groups_in_range (samples : List Int) (x : Int)
    (hx : x ∈ decodeData ((build_classic_pcm24_wav_bytes samples).drop 44)) :
    -8388608 ≤ x ∧ x ≤ 8388607 := by
  rw [build_drop_44, decodeData_flatten] at hx
  obtain ⟨v, _, rfl⟩ := List.mem_map.mp hx
  exact clamp24_bounds v

/-- Witness for C9 on a concrete buffer built from one huge sample. -/
theorem emitted_groups_in_range_witness :
    -8388608 ≤ (8388607 : Int) ∧ (8388607 : Int) ≤ 8388607 :=
  emitted_groups_in_range [123456789] 8388607 (by decide)

/-- The data-size field of the output always holds `3 * n` reduced modulo
`2 ^ 32` (mirroring the `as u32` cast in the source). -/
lemma fieldU32_data (samples : List Int) :
    fieldU32 (build_classic_pcm24_wav_bytes samples) 40 =
      samples.length * 3 % 4294967296 := by
  unfold fieldU32
  rw [build_drop_take samples 40 4 (by omega)]
  have hdrop : (wavHeader samples.length).drop 40 =
      le32 (samples.length * 3 % 4294967296) := rfl
  rw [hdrop]
  have htake : (le32 (samples.length * 3 % 4294967296)).take 4 =
      le32 (samples.length * 3 % 4294967296) := rfl
  rw [htake, leBytes_le32, Nat.mod_mod_of_dvd]
  exact dvd_refl _

/-- The RIFF-size field of the output always holds
`4 + (8 + 16) + (8 + data_bytes)` reduced modulo `2 ^ 32`. -/
lemma fieldU32_riff (samples : List Int) :
    fieldU32 (build_classic_pcm24_wav_bytes samples) 4 =
      (4 + (8 + 16) + (8 + samples.length * 3 % 4294967296)) % 4294967296 := by
  unfold fieldU32
  rw [build_drop_take samples 4 4 (by omega)]
  have hslice : ((wavHeader samples.length).drop 4).take 4 =
      le32 ((4 + (8 + 16) + (8 + samples.length * 3 % 4294967296)) % 4294967296) := rfl
  rw [hslice, leBytes_le32, Nat.mod_mod_of_dvd]
  exact dvd_refl _

/-- Counterexample to C6 as stated: at 1,431,655,754 samples the `u32`
RIFF-size computation wraps, so the field does not equal
`4 + (8 + 16) + (8 + 3 * n)`. -/
theorem encoder_sizes_counterexample :
    fieldU32 (build_classic_pcm24_wav_bytes (List.replicate 1431655754 0)) 4 ≠
      4 + (8 + 16) + (8 + 3 * 1431655754) := by
  have h := fieldU32_riff (List.replicate 1431655754 (0 : Int))
  rw [List.length_replicate] at h
  rw [h]
  norm_num

/-- C6 (amended): the encoder derives its size fields from the actual input
length `n` with `u32` arithmetic: the buffer always has `44 + 3 * n` bytes,
the data-size field always holds `3 * n` reduced modulo `2 ^ 32` and the
RIFF-size field always holds `4 + (8 + 16) + (8 + (3 * n) % 2 ^ 32)` reduced
modulo `2 ^ 32`; whenever `36 + 3 * n` fits in a `u32` these are exactly
`3 * n` and `4 + (8 + 16) + (8 + 3 * n)`. -/
theorem encoder_sizes (samples : List Int) :
    (build_classic_pcm24_wav_bytes samples).length = 44 + 3 * samples.length ∧
    fieldU32 (build_classic_pcm24_wav_bytes samples) 40 =
      3 * samples.length % 4294967296 ∧
    fieldU32 (build_classic_pcm24_wav_bytes samples) 4 =
      (4 + (8 + 16) + (8 + 3 * samples.length % 4294967296)) % 4294967296 ∧
    (4 + (8 + 16) + (8 + 3 * samples.length) < 4294967296 →
      fieldU32 (build_classic_pcm24_wav_bytes samples) 40 = 3 * samples.length ∧
      fieldU32 (build_classic_pcm24_wav_bytes samples) 4 =
        4 + (8 + 16) + (8 + 3 * samples.length)) := by
  have hd := fieldU32_data samples
  have hr := fieldU32_riff samples
  refine ⟨build_length samples, by omega, by omega, fun h => ⟨by omega, by omega⟩⟩

/-- Witness for C6 at a concrete 2-sample input, discharging the
fits-in-u32 hypothesis of the exact-value conjunct. -/
theorem encoder_sizes_witness :
    (build_classic_pcm24_wav_bytes (List.replicate 2 (5 : Int))).length = 44 + 3 * 2 ∧
    fieldU32 (build_classic_pcm24_wav_bytes (List.replicate 2 (5 : Int))) 40 = 3 * 2 ∧
    fieldU32 (build_classic_pcm24_wav_bytes (List.replicate 2 (5 : Int))) 4 =
      4 + (8 + 16) + (8 + 3 * 2) := by
  have h := encoder_sizes (List.replicate 2 (5 : Int))
  have hx := h.2.2.2 (by rw [List.length_replicate]; norm_num)
  refine ⟨by simpa using h.1, by simpa using hx.1, by simpa using hx.2⟩

/-- A conforming header passes all four checks and returns the samples. -/
lemma read_valid (samples : List Int) :
    read_pcm24_mono ⟨48000, 1, SampleFormat.int, 24⟩ samples = .ok samples := by
  simp [read_pcm24_mono, TARGET_SR]

/-- C2: on a valid 48 kHz / mono / 24-bit input whose 1024 samples are all
inside the signed 24-bit range, the full pipeline succeeds, the normalizer
and the clamp are no-ops, and decoding the produced data region returns the
input samples exactly. -/
theorem roundtrip_exact (samples : List Int) (h1 : samples.length = 1024)
    (h2 : ∀ v ∈ samples, -8388608 ≤ v ∧ v ≤ 8388607) :
    convert ⟨48000, 1, SampleFormat.int, 24⟩ samples =
      .ok (build_classic_pcm24_wav_bytes samples) ∧
    decodeData ((build_classic_pcm24_wav_bytes samples).drop 44) = samples := by
  constructor
  · unfold convert
    rw [read_valid samples]
    show Except.ok (build_classic_pcm24_wav_bytes (normalize_frame samples)) = _
    rw [normalize_frame_fix samples h1]
  · rw [build_drop_44, decodeData_flatten]
    have hid : ∀ v ∈ samples, clamp24 v = v := fun v hv =>
      clamp24_id v (h2 v hv).1 (h2 v hv).2
    rw [List.map_congr_left hid]
    exact List.map_id samples

/-- Witness for C2 at a concrete all-fives 1024-sample input. -/
theorem roundtrip_exact_witness :
    decodeData ((build_classic_pcm24_wav_bytes (List.replicate 1024 (5 : Int))).drop 44) =
      List.replicate 1024 (5 : Int) :=
  (roundtrip_exact (List.replicate 1024 (5 : Int)) (by simp)
    (fun v hv => by rw [List.eq_of_mem_replicate hv]; norm_num)).2

/-- C5: the decoder fails exactly when the header violates the
48 kHz / mono / integer / 24-bit profile; the checks run in source order
(rate, channels, encoding, bit depth), and each violation, when reached,
yields its own expected-versus-actual error; all four checks passing yields
the samples unchanged. -/
theorem decoder_validation (spec : WavSpec) (samples : List Int) :
    ((∃ e, read_pcm24_mono spec samples = .error e) ↔
      (spec.sample_rate ≠ 48000 ∨ spec.channels ≠ 1 ∨
        spec.sample_format = SampleFormat.float ∨ spec.bits_per_sample ≠ 24)) ∧
    (spec.sample_rate ≠ 48000 →
      read_pcm24_mono spec samples =
        .error ("Expected " ++ toString TARGET_SR ++ " Hz, got " ++
          toString spec.sample_rate ++ " (no resample)")) ∧
    (spec.sample_rate = 48000 → spec.channels ≠ 1 →
      read_pcm24_mono spec samples =
        .error ("Expected mono (1 channel), got " ++ toString spec.channels)) ∧
    (spec.sample_rate = 48000 → spec.channels = 1 →
      spec.sample_format = SampleFormat.float →
      read_pcm24_mono spec samples = .error "Expected integer PCM, got Float") ∧
    (spec.sample_rate = 48000 → spec.channels = 1 →
      spec.sample_format = SampleFormat.int → spec.bits_per_sample ≠ 24 →
      read_pcm24_mono spec samples =
        .error ("Expected 24-bit PCM, got " ++ toString spec.bits_per_sample ++ "-bit")) ∧
    (spec.sample_rate = 48000 → spec.channels = 1 →
      spec.sample_format = SampleFormat.int → spec.bits_per_sample = 24 →
      read_pcm24_mono spec samples = .ok samples) := by
  obtain ⟨r, c, f, b⟩ := spec
  rcases f <;> by_cases hr : r = 48000 <;> by_cases hc : c = 1 <;> by_cases hb : b = 24 <;>
    simp [read_pcm24_mono, TARGET_SR, SampleFormat.render, hr, hc, hb]

/-- Witness for C5: a wrong-rate header is rejected with the rate message,
and a conforming header is accepted. -/
theorem decoder_validation_witness :
    read_pcm24_mono ⟨44100, 1, SampleFormat.int, 24⟩ [3] =
      .error ("Expected " ++ toString TARGET_SR ++ " Hz, got " ++
        toString (44100 : Nat) ++ " (no resample)") ∧
    read_pcm24_mono ⟨48000, 1, SampleFormat.int, 24⟩ [3] = .ok [3] :=
  ⟨(decoder_validation ⟨44100, 1, SampleFormat.int, 24⟩ [3]).2.1 (by norm_num),
   (decoder_validation ⟨48000, 1, SampleFormat.int, 24⟩ [3]).2.2.2.2.2 rfl rfl rfl rfl⟩

/-- Counterexample to C7 as stated: when the flush fails, the surfaced error
is the fixed string `"flush temp file"` (the source builds this context with
no path in it), which does not contain the offending temp path. -/
theorem durable_writer_errors_counterexample :
    (write_atomic_synced ⟨true, true, false, true, true, true⟩
        ⟨some "dir", some "out.wav"⟩ [1, 2, 3] ⟨none, none⟩).1 =
      .error "flush temp file" ∧
    strContains "flush temp file"
      ((temp_path_in_same_dir ⟨some "dir", some "out.wav"⟩).1.render) = false := by
  refine ⟨rfl, ?_⟩
  decide

/-- C7 (amended): every failure of temp-file creation, write, flush, fsync
or rename is fatal and surfaced; creation, write and rename failures carry
the offending path in the message, while flush and fsync failures carry the
fixed messages `"flush temp file"` / `"fsync temp file"` without the path;
the destination is untouched by any failure; and when all five steps
succeed the result is successful whatever the best-effort directory sync
does. -/
theorem durable_writer_errors (w : FsWorld) (path : RPath) (bytes : List Nat)
    (st : FsState) :
    (w.createOk = false →
      (write_atomic_synced w path bytes st).1 =
          .error ("create temp file " ++ (temp_path_in_same_dir path).1.render) ∧
        (write_atomic_synced w path bytes st).2.1.dest = st.dest) ∧
    (w.createOk = true → w.writeOk = false →
      (write_atomic_synced w path bytes st).1 =
          .error ("write temp file " ++ (temp_path_in_same_dir path).1.render) ∧
        (write_atomic_synced w path bytes st).2.1.dest = st.dest) ∧
    (w.createOk = true → w.writeOk = true → w.flushOk = false →
      (write_atomic_synced w path bytes st).1 = .error "flush temp file" ∧
        (write_atomic_synced w path bytes st).2.1.dest = st.dest) ∧
    (w.createOk = true → w.writeOk = true → w.flushOk = true → w.syncOk = false →
      (write_atomic_synced w path bytes st).1 = .error "fsync temp file" ∧
        (write_atomic_synced w path bytes st).2.1.dest = st.dest) ∧
    (w.createOk = true → w.writeOk = true → w.flushOk = true → w.syncOk = true →
      w.renameOk = false →
      (write_atomic_synced w path bytes st).1 =
          .error ("rename temp " ++ (temp_path_in_same_dir path).1.render ++ " -> " ++
            path.render ++ " (must be same filesystem)") ∧
        (write_atomic_synced w path bytes st).2.1.dest = st.dest) ∧
    (w.createOk = true → w.writeOk = true → w.flushOk = true → w.syncOk = true →
      w.renameOk = true →
      (write_atomic_synced w path bytes st).1 = .ok () ∧
        (write_atomic_synced w path bytes st).2.1.dest = some bytes) := by
  obtain ⟨cr, wr, fl, sy, rn, ds⟩ := w
  cases cr <;> cases wr <;> cases fl <;> cases sy <;> cases rn <;>
    cases hp : path.parent <;>
      simp [write_atomic_synced, temp_path_in_same_dir, hp]

/-- Witness for C7 at a concrete failing-create world. -/
theorem durable_writer_errors_witness :
    (write_atomic_synced ⟨false, true, true, true, true, true⟩
        ⟨some "d", some "o.wav"⟩ [7] ⟨none, none⟩).1 =
      .error ("create temp file " ++
        (temp_path_in_same_dir (⟨some "d", some "o.wav"⟩ : RPath)).1.render) ∧
    (write_atomic_synced ⟨false, true, true, true, true, true⟩
        ⟨some "d", some "o.wav"⟩ [7] ⟨none, none⟩).2.1.dest = none :=
  (durable_writer_errors ⟨false, true, true, true, true, true⟩
    ⟨some "d", some "o.wav"⟩ [7] ⟨none, none⟩).1 rfl

/-- C8: the temp path sits in the destination's directory under the name
`"." + file_name + ".tmp"`, and in any run whose trace reaches the rename,
the rename is preceded by exactly the create, the single full-buffer write,
the flush and the fsync of that temp file. -/
theorem temp_path_and_sync_order (path : RPath) (name : String)
    (h : path.fileName = some name) :
    (temp_path_in_same_dir path).1.parent = path.parent ∧
    (temp_path_in_same_dir path).1.fileName = some ("." ++ name ++ ".tmp") ∧
    (temp_path_in_same_dir path).2 = path.parent ∧
    (∀ (w : FsWorld) (bytes : List Nat) (st : FsState),
      WEvent.rename (temp_path_in_same_dir path).1 path ∈
          (write_atomic_synced w path bytes st).2.2 →
      (write_atomic_synced w path bytes st).2.2.take 5 =
        [WEvent.create (temp_path_in_same_dir path).1,
         WEvent.writeAll (temp_path_in_same_dir path).1 bytes,
         WEvent.flush (temp_path_in_same_dir path).1,
         WEvent.sync (temp_path_in_same_dir path).1,
         WEvent.rename (temp_path_in_same_dir path).1 path]) := by
  refine ⟨rfl, ?_, rfl, ?_⟩
  · simp [temp_path_in_same_dir, h]
  · intro w bytes st hmem
    obtain ⟨cr, wr, fl, sy, rn, ds⟩ := w
    cases cr <;> cases wr <;> cases fl <;> cases sy <;> cases rn <;>
      cases hp : path.parent <;>
        simp_all [write_atomic_synced, temp_path_in_same_dir, hp]

/-- Witness for C8 at a concrete destination path. -/
theorem temp_path_and_sync_order_witness :
    (temp_path_in_same_dir (⟨some "d", some "out.wav"⟩ : RPath)).1.fileName =
      some ("." ++ "out.wav" ++ ".tmp") :=
  (temp_path_and_sync_order ⟨some "d", some "out.wav"⟩ "out.wav" rfl).2.1
